import Mathlib

/-!
Verification of the JSON-RPC / tool-dispatch protocol layer of the
Gymbros train & flight server (src/server.js, src/auth.js).

The transport layer's JSON values are modelled by an inductive type with
integer numbers (every value this protocol layer manipulates is covered).
The platform primitives JSON.parse and JSON.stringify are modelled by an
executable parser and printer over that type; the engine-specific text of
a platform parse-error message is modelled by a fixed placeholder string.
The upstream IRCTC/flight client (src/irctcService.js) is an external
collaborator and is modelled as an oracle parameter.
-/

namespace Gymbros

/-- JSON values as produced by the transport layer (express.json with
strict mode off): numbers restricted to integers. -/
inductive Json where
  | obj (pairs : List (String × Json))
  | arr (items : List Json)
  | str (text : String)
  | num (value : Int)
  | bool (flag : Bool)
  | null

/-! ## Character helpers -/

def isDigitChar (c : Char) : Bool := 48 ≤ c.toNat && c.toNat ≤ 57

def digitVal (c : Char) : Nat := c.toNat - 48

def digitChar (n : Nat) : Char := Char.ofNat (48 + n)

def isWsChar (c : Char) : Bool := c = ' ' || c = '\n' || c = '\t' || c = '\r'

def skipWs : List Char → List Char
  | [] => []
  | c :: cs => if isWsChar c then skipWs cs else c :: cs

/-! ## Decimal digits of a natural number -/

def natDigitsAux (n : Nat) (acc : List Char) : List Char :=
  if h : n = 0 then acc
  else natDigitsAux (n / 10) (digitChar (n % 10) :: acc)
decreasing_by exact Nat.div_lt_self (Nat.pos_of_ne_zero h) (by decide)

def natDigits (n : Nat) : List Char :=
  if n = 0 then ['0'] else natDigitsAux n []

/-- Decimal notation of an integer, as JSON.stringify and template
literals print it. -/
def intChars (n : Int) : List Char :=
  if n < 0 then '-' :: natDigits n.natAbs else natDigits n.natAbs

def intDisp (n : Int) : String := String.mk (intChars n)

/-! ## String escaping (the escapes JSON.stringify emits) -/

def escapeChar (c : Char) : List Char :=
  if c = '"' then ['\\', '"']
  else if c = '\\' then ['\\', '\\']
  else if c = '\n' then ['\\', 'n']
  else if c = '\t' then ['\\', 't']
  else if c = '\r' then ['\\', 'r']
  else [c]

def escapeList : List Char → List Char
  | [] => []
  | c :: cs => escapeChar c ++ escapeList cs

def unescapeChar (c : Char) : Option Char :=
  if c = '"' then some '"'
  else if c = '\\' then some '\\'
  else if c = '/' then some '/'
  else if c = 'n' then some '\n'
  else if c = 't' then some '\t'
  else if c = 'r' then some '\r'
  else if c = 'b' then some (Char.ofNat 8)
  else if c = 'f' then some (Char.ofNat 12)
  else none

/-! ## Printer (model of JSON.stringify) -/

mutual

def emit : Json → List Char
  | .obj kvs => '{' :: emitFieldsFirst kvs
  | .arr xs => '[' :: emitElemsFirst xs
  | .str s => '"' :: (escapeList s.data ++ ['"'])
  | .num n => intChars n
  | .bool b => if b then "true".data else "false".data
  | .null => "null".data

def emitElemsFirst : List Json → List Char
  | [] => [']']
  | x :: xs => emit x ++ emitElemsRest xs

def emitElemsRest : List Json → List Char
  | [] => [']']
  | x :: xs => ',' :: (emit x ++ emitElemsRest xs)

def emitFieldsFirst : List (String × Json) → List Char
  | [] => ['}']
  | (k, v) :: kvs =>
      '"' :: (escapeList k.data ++ '"' :: ':' :: (emit v ++ emitFieldsRest kvs))

def emitFieldsRest : List (String × Json) → List Char
  | [] => ['}']
  | (k, v) :: kvs =>
      ',' :: '"' :: (escapeList k.data ++ '"' :: ':' :: (emit v ++ emitFieldsRest kvs))

end

def jsonStringify (v : Json) : String := String.mk (emit v)

/-! ## Parser (model of JSON.parse) -/

def parseDigitsAux : List Char → Nat → Nat × List Char
  | [], acc => (acc, [])
  | c :: cs, acc =>
      if isDigitChar c then parseDigitsAux cs (acc * 10 + digitVal c)
      else (acc, c :: cs)

def parseStrAux : List Char → List Char → Option (String × List Char)
  | [], _ => none
  | '"' :: cs, acc => some (String.mk acc.reverse, cs)
  | ['\\'], _ => none
  | '\\' :: e :: cs, acc =>
    match unescapeChar e with
    | some u => parseStrAux cs (u :: acc)
    | none => none
  | c :: cs, acc => parseStrAux cs (c :: acc)

mutual

def parseVal : Nat → List Char → Option (Json × List Char)
  | 0, _ => none
  | fuel + 1, input =>
    match skipWs input with
    | [] => none
    | c :: cs =>
      if c = '{' then
        match parseFieldsFirst fuel cs with
        | some (kvs, r) => some (Json.obj kvs, r)
        | none => none
      else if c = '[' then
        match parseElemsFirst fuel cs with
        | some (xs, r) => some (Json.arr xs, r)
        | none => none
      else if c = '"' then
        match parseStrAux cs [] with
        | some (s, r) => some (Json.str s, r)
        | none => none
      else if c = 't' then
        match cs with
        | 'r' :: 'u' :: 'e' :: r => some (Json.bool true, r)
        | _ => none
      else if c = 'f' then
        match cs with
        | 'a' :: 'l' :: 's' :: 'e' :: r => some (Json.bool false, r)
        | _ => none
      else if c = 'n' then
        match cs with
        | 'u' :: 'l' :: 'l' :: r => some (Json.null, r)
        | _ => none
      else if c = '-' then
        match cs with
        | [] => none
        | d :: ds =>
          if isDigitChar d then
            let p := parseDigitsAux (d :: ds) 0
            some (Json.num (-(p.1 : Int)), p.2)
          else none
      else if isDigitChar c then
        let p := parseDigitsAux (c :: cs) 0
        some (Json.num (p.1 : Int), p.2)
      else none

def parseElemsFirst : Nat → List Char → Option (List Json × List Char)
  | 0, _ => none
  | fuel + 1, input =>
    match skipWs input with
    | [] => none
    | c :: cs =>
      if c = ']' then some ([], cs)
      else
        match parseVal fuel (c :: cs) with
        | some (v, r1) =>
          match parseElemsRest fuel r1 with
          | some (vs, r2) => some (v :: vs, r2)
          | none => none
        | none => none

def parseElemsRest : Nat → List Char → Option (List Json × List Char)
  | 0, _ => none
  | fuel + 1, input =>
    match skipWs input with
    | [] => none
    | c :: cs =>
      if c = ']' then some ([], cs)
      else if c = ',' then
        match parseVal fuel cs with
        | some (v, r1) =>
          match parseElemsRest fuel r1 with
          | some (vs, r2) => some (v :: vs, r2)
          | none => none
        | none => none
      else none

def parseOneField : Nat → List Char → Option ((String × Json) × List Char)
  | 0, _ => none
  | fuel + 1, input =>
    match parseStrAux input [] with
    | some (k, r1) =>
      match skipWs r1 with
      | [] => none
      | c2 :: r2 =>
        if c2 = ':' then
          match parseVal fuel r2 with
          | some (v, r3) => some ((k, v), r3)
          | none => none
        else none
    | none => none

def parseFieldsFirst : Nat → List Char → Option (List (String × Json) × List Char)
  | 0, _ => none
  | fuel + 1, input =>
    match skipWs input with
    | [] => none
    | c :: cs =>
      if c = '}' then some ([], cs)
      else if c = '"' then
        match parseOneField fuel cs with
        | some (kv, r3) =>
          match parseFieldsRest fuel r3 with
          | some (kvs, r4) => some (kv :: kvs, r4)
          | none => none
        | none => none
      else none

def parseFieldsRest : Nat → List Char → Option (List (String × Json) × List Char)
  | 0, _ => none
  | fuel + 1, input =>
    match skipWs input with
    | [] => none
    | c :: cs =>
      if c = '}' then some ([], cs)
      else if c = ',' then
        match skipWs cs with
        | [] => none
        | c2 :: cs2 =>
          if c2 = '"' then
            match parseOneField fuel cs2 with
            | some (kv, r3) =>
              match parseFieldsRest fuel r3 with
              | some (kvs, r4) => some (kv :: kvs, r4)
              | none => none
            | none => none
          else none
      else none

end

/-- Top-level model of JSON.parse: fuel is generous enough for every
string the printer produces (see the round-trip theorem below). -/
def jsonParse (s : String) : Option Json :=
  match parseVal (2 * s.length + 2) s.data with
  | some (v, r) =>
    match skipWs r with
    | [] => some v
    | _ => none
  | none => none

/-! ## Fuel accounting: how much fuel each printed value requires -/

mutual

def need : Json → Nat
  | .obj kvs => needFields kvs + 1
  | .arr xs => needElems xs + 1
  | .str _ => 1
  | .num _ => 1
  | .bool _ => 1
  | .null => 1

def needElems : List Json → Nat
  | x :: xs => need x + needElems xs + 1
  | [] => 1

def needFields : List (String × Json) → Nat
  | (_, v) :: kvs => need v + needFields kvs + 2
  | [] => 1

end

theorem one_le_need (v : Json) : 1 ≤ need v := by
  cases v <;> simp [need]

theorem one_le_needElems (xs : List Json) : 1 ≤ needElems xs := by
  cases xs <;> simp [needElems]

theorem one_le_needFields (kvs : List (String × Json)) : 1 ≤ needFields kvs := by
  cases kvs with
  | nil => simp [needFields]
  | cons kv kvs => obtain ⟨k, v⟩ := kv; simp [needFields]

/-! ## Digit printing and parsing agree -/

def valOfDigits : List Char → Nat → Nat
  | [], acc => acc
  | c :: cs, acc => valOfDigits cs (acc * 10 + digitVal c)

def noDigitHead : List Char → Prop
  | [] => True
  | c :: _ => isDigitChar c = false

theorem digitChar_digit {n : Nat} (h : n < 10) : isDigitChar (digitChar n) = true := by
  interval_cases n <;> decide

theorem digitVal_digitChar {n : Nat} (h : n < 10) : digitVal (digitChar n) = n := by
  interval_cases n <;> decide

theorem parseDigitsAux_spec (ds : List Char) : ∀ rest acc,
    (∀ c ∈ ds, isDigitChar c = true) → noDigitHead rest →
    parseDigitsAux (ds ++ rest) acc = (valOfDigits ds acc, rest) := by
  induction ds with
  | nil =>
    intro rest acc _ hrest
    cases rest with
    | nil => rfl
    | cons c t =>
      simp only [noDigitHead] at hrest
      simp [parseDigitsAux, hrest, valOfDigits]
  | cons c ds ih =>
    intro rest acc hds hrest
    have hc : isDigitChar c = true := hds c (by simp)
    simp only [List.cons_append, parseDigitsAux, hc, if_true, valOfDigits]
    exact ih rest _ (fun d hd => hds d (by simp [hd])) hrest

def numDigits (n : Nat) : Nat :=
  if h : n = 0 then 0 else numDigits (n / 10) + 1
decreasing_by exact Nat.div_lt_self (Nat.pos_of_ne_zero h) (by decide)

theorem natDigitsAux_all_digits (n : Nat) : ∀ acc,
    (∀ c ∈ acc, isDigitChar c = true) →
    ∀ c ∈ natDigitsAux n acc, isDigitChar c = true := by
  induction n using Nat.strong_induction_on with
  | _ n ih =>
    intro acc hacc c hc
    rw [natDigitsAux] at hc
    split at hc
    · exact hacc c hc
    · next h =>
      refine ih (n / 10) (Nat.div_lt_self (Nat.pos_of_ne_zero h) (by decide)) _ ?_ c hc
      intro d hd
      rcases List.mem_cons.mp hd with hd | hd
      · subst hd; exact digitChar_digit (Nat.mod_lt _ (by decide))
      · exact hacc d hd

theorem valOfDigits_natDigitsAux (n : Nat) : ∀ acc a,
    valOfDigits (natDigitsAux n acc) a =
      valOfDigits acc (a * 10 ^ numDigits n + n) := by
  induction n using Nat.strong_induction_on with
  | _ n ih =>
    intro acc a
    rw [natDigitsAux]
    split
    · next h => subst h; simp [numDigits]
    · next h =>
      rw [ih (n / 10) (Nat.div_lt_self (Nat.pos_of_ne_zero h) (by decide))]
      simp only [valOfDigits]
      rw [digitVal_digitChar (Nat.mod_lt _ (by decide))]
      have hpow : numDigits n = numDigits (n / 10) + 1 := by
        conv_lhs => rw [numDigits]
        simp [h]
      rw [hpow, pow_succ]
      congr 1
      generalize 10 ^ numDigits (n / 10) = t
      have hdm : 10 * (n / 10) + n % 10 = n := Nat.div_add_mod n 10
      have expand : (a * t + n / 10) * 10 + n % 10
          = a * (t * 10) + (10 * (n / 10) + n % 10) := by ring
      rw [expand, hdm]

theorem valOfDigits_natDigits (n : Nat) : valOfDigits (natDigits n) 0 = n := by
  rw [natDigits]
  split
  · next h => subst h; decide
  · rw [valOfDigits_natDigitsAux]
    simp [valOfDigits]

theorem natDigits_all_digits (n : Nat) : ∀ c ∈ natDigits n, isDigitChar c = true := by
  rw [natDigits]
  split
  · intro c hc; simp at hc; subst hc; decide
  · exact natDigitsAux_all_digits n [] (by simp)

theorem natDigitsAux_length (n : Nat) : ∀ acc,
    acc.length ≤ (natDigitsAux n acc).length := by
  induction n using Nat.strong_induction_on with
  | _ n ih =>
    intro acc
    rw [natDigitsAux]
    split
    · exact le_refl _
    · next h =>
      have := ih (n / 10) (Nat.div_lt_self (Nat.pos_of_ne_zero h) (by decide))
        (digitChar (n % 10) :: acc)
      simp only [List.length_cons] at this
      omega

theorem natDigits_cons (n : Nat) :
    ∃ d ds, natDigits n = d :: ds ∧ isDigitChar d = true := by
  have hne : natDigits n ≠ [] := by
    rw [natDigits]
    split
    · simp
    · next h =>
      rw [natDigitsAux]
      simp only [h, dite_false]
      have := natDigitsAux_length (n / 10) [digitChar (n % 10)]
      intro heq
      rw [heq] at this
      simp at this
  cases hd : natDigits n with
  | nil => exact absurd hd hne
  | cons d ds =>
    exact ⟨d, ds, rfl, natDigits_all_digits n d (by rw [hd]; simp)⟩

/-! ## Character classification facts -/

theorem skipWs_cons_not {c : Char} (l : List Char) (h : isWsChar c = false) :
    skipWs (c :: l) = c :: l := by simp [skipWs, h]

theorem ne_of_out_of_digit_range {c d : Char} (h1 : 48 ≤ c.toNat) (h2 : c.toNat ≤ 57)
    (hd : d.toNat < 48 ∨ 57 < d.toNat) : c ≠ d := by
  rintro rfl; omega

theorem digit_char_facts {c : Char} (h : isDigitChar c = true) :
    isWsChar c = false ∧ c ≠ '{' ∧ c ≠ '[' ∧ c ≠ '"' ∧ c ≠ 't' ∧ c ≠ 'f' ∧
      c ≠ 'n' ∧ c ≠ '-' ∧ c ≠ ']' ∧ c ≠ ',' ∧ c ≠ '}' ∧ c ≠ ':' := by
  simp only [isDigitChar, Bool.and_eq_true, decide_eq_true_eq] at h
  obtain ⟨h1, h2⟩ := h
  have hsp : c ≠ ' ' := ne_of_out_of_digit_range h1 h2 (by decide)
  have hnl : c ≠ '\n' := ne_of_out_of_digit_range h1 h2 (by decide)
  have hht : c ≠ '\t' := ne_of_out_of_digit_range h1 h2 (by decide)
  have hcr : c ≠ '\r' := ne_of_out_of_digit_range h1 h2 (by decide)
  refine ⟨by simp [isWsChar, hsp, hnl, hht, hcr], ?_, ?_, ?_, ?_, ?_, ?_, ?_, ?_, ?_, ?_, ?_⟩ <;>
    exact ne_of_out_of_digit_range h1 h2 (by decide)

/-- Every printed value starts with a non-whitespace character that is not
a sequence delimiter. -/
theorem emit_head (v : Json) :
    ∃ c t, emit v = c :: t ∧ isWsChar c = false ∧
      c ≠ ']' ∧ c ≠ ',' ∧ c ≠ '}' ∧ c ≠ ':' := by
  cases v with
  | null => exact ⟨'n', _, rfl, by decide, by decide, by decide, by decide, by decide⟩
  | bool b =>
    cases b
    · exact ⟨'f', _, rfl, by decide, by decide, by decide, by decide, by decide⟩
    · exact ⟨'t', _, rfl, by decide, by decide, by decide, by decide, by decide⟩
  | num n =>
    by_cases hn : n < 0
    · exact ⟨'-', natDigits n.natAbs, by simp [emit, intChars, hn], by decide, by decide,
        by decide, by decide, by decide⟩
    · obtain ⟨d, ds, hd, hdig⟩ := natDigits_cons n.natAbs
      obtain ⟨hws, _, _, _, _, _, _, _, hb1, hb2, hb3, hb4⟩ := digit_char_facts hdig
      exact ⟨d, ds, by simp [emit, intChars, hn, hd], hws, hb1, hb2, hb3, hb4⟩
  | str s => exact ⟨'"', _, rfl, by decide, by decide, by decide, by decide, by decide⟩
  | arr xs => exact ⟨'[', _, rfl, by decide, by decide, by decide, by decide, by decide⟩
  | obj kvs => exact ⟨'{', _, rfl, by decide, by decide, by decide, by decide, by decide⟩

theorem noDigitHead_emitElemsRest (xs : List Json) (rest : List Char) :
    noDigitHead (emitElemsRest xs ++ rest) := by
  cases xs with
  | nil => simp [emitElemsRest, noDigitHead]; decide
  | cons x xs => simp [emitElemsRest, noDigitHead]; decide

theorem noDigitHead_emitFieldsRest (kvs : List (String × Json)) (rest : List Char) :
    noDigitHead (emitFieldsRest kvs ++ rest) := by
  cases kvs with
  | nil => simp [emitFieldsRest, noDigitHead]; decide
  | cons kv kvs =>
    obtain ⟨k, v⟩ := kv
    simp [emitFieldsRest, noDigitHead]; decide

/-! ## Stepping lemmas for the parser on known head characters -/

theorem parseVal_null_step (fuel : Nat) (r : List Char) :
    parseVal (fuel + 1) ('n' :: 'u' :: 'l' :: 'l' :: r) = some (Json.null, r) := rfl

theorem parseVal_true_step (fuel : Nat) (r : List Char) :
    parseVal (fuel + 1) ('t' :: 'r' :: 'u' :: 'e' :: r) = some (Json.bool true, r) := rfl

theorem parseVal_false_step (fuel : Nat) (r : List Char) :
    parseVal (fuel + 1) ('f' :: 'a' :: 'l' :: 's' :: 'e' :: r) = some (Json.bool false, r) := rfl

theorem parseVal_str_step (fuel : Nat) (l : List Char) :
    parseVal (fuel + 1) ('"' :: l) =
      match parseStrAux l [] with
      | some (s, r) => some (Json.str s, r)
      | none => none := rfl

theorem parseVal_arr_step (fuel : Nat) (l : List Char) :
    parseVal (fuel + 1) ('[' :: l) =
      match parseElemsFirst fuel l with
      | some (xs, r) => some (Json.arr xs, r)
      | none => none := rfl

theorem parseVal_obj_step (fuel : Nat) (l : List Char) :
    parseVal (fuel + 1) ('{' :: l) =
      match parseFieldsFirst fuel l with
      | some (kvs, r) => some (Json.obj kvs, r)
      | none => none := rfl

theorem parseVal_digit_step (fuel : Nat) {c : Char} (l : List Char)
    (h : isDigitChar c = true) :
    parseVal (fuel + 1) (c :: l) =
      some (Json.num ((parseDigitsAux (c :: l) 0).1 : Int), (parseDigitsAux (c :: l) 0).2) := by
  obtain ⟨hws, h1, h2, h3, h4, h5, h6, h7, _, _, _, _⟩ := digit_char_facts h
  simp [parseVal, skipWs_cons_not _ hws, h, h1, h2, h3, h4, h5, h6, h7]

theorem parseVal_neg_step (fuel : Nat) {d : Char} (ds : List Char)
    (h : isDigitChar d = true) :
    parseVal (fuel + 1) ('-' :: d :: ds) =
      some (Json.num (-((parseDigitsAux (d :: ds) 0).1 : Int)), (parseDigitsAux (d :: ds) 0).2) := by
  simp [parseVal, skipWs, isWsChar, h]

theorem parseElemsRest_comma_step (fuel : Nat) (l : List Char) :
    parseElemsRest (fuel + 1) (',' :: l) =
      match parseVal fuel l with
      | some (v, r1) =>
        match parseElemsRest fuel r1 with
        | some (vs, r2) => some (v :: vs, r2)
        | none => none
      | none => none := rfl

theorem parseFieldsFirst_quote_step (fuel : Nat) (l : List Char) :
    parseFieldsFirst (fuel + 1) ('"' :: l) =
      match parseOneField fuel l with
      | some (kv, r3) =>
        match parseFieldsRest fuel r3 with
        | some (kvs, r4) => some (kv :: kvs, r4)
        | none => none
      | none => none := rfl

theorem parseFieldsRest_comma_step (fuel : Nat) (l : List Char) :
    parseFieldsRest (fuel + 1) (',' :: '"' :: l) =
      match parseOneField fuel l with
      | some (kv, r3) =>
        match parseFieldsRest fuel r3 with
        | some (kvs, r4) => some (kv :: kvs, r4)
        | none => none
      | none => none := rfl

/-! ## String escape round trip -/

theorem string_mk_data (s : String) : String.mk s.data = s := rfl

theorem parseStrAux_quote (cs acc : List Char) :
    parseStrAux ('"' :: cs) acc = some (String.mk acc.reverse, cs) := rfl

theorem parseStrAux_esc (e : Char) (cs acc : List Char) :
    parseStrAux ('\\' :: e :: cs) acc =
      match unescapeChar e with
      | some u => parseStrAux cs (u :: acc)
      | none => none := rfl

theorem parseStrAux_other {c : Char} (cs acc : List Char)
    (h1 : c ≠ '"') (h2 : c ≠ '\\') :
    parseStrAux (c :: cs) acc = parseStrAux cs (c :: acc) := by
  rw [parseStrAux]
  · exact fun h => h1 h
  · exact fun h _ => h2 h
  · exact fun e cs1 h _ => h2 h

theorem parseStrAux_emit (cs : List Char) : ∀ acc rest,
    parseStrAux (escapeList cs ++ '"' :: rest) acc =
      some (String.mk (acc.reverse ++ cs), rest) := by
  induction cs with
  | nil => intro acc rest; simp [escapeList, parseStrAux_quote]
  | cons c cs ih =>
    intro acc rest
    by_cases h1 : c = '"'
    · subst h1
      simp [escapeList, escapeChar, parseStrAux_esc, unescapeChar, ih, List.append_assoc]
    · by_cases h2 : c = '\\'
      · subst h2
        simp [escapeList, escapeChar, parseStrAux_esc, unescapeChar, ih, List.append_assoc]
      · by_cases h3 : c = '\n'
        · subst h3
          simp [escapeList, escapeChar, parseStrAux_esc, unescapeChar, ih, List.append_assoc]
        · by_cases h4 : c = '\t'
          · subst h4
            simp [escapeList, escapeChar, parseStrAux_esc, unescapeChar, ih, List.append_assoc]
          · by_cases h5 : c = '\r'
            · subst h5
              simp [escapeList, escapeChar, parseStrAux_esc, unescapeChar, ih,
                List.append_assoc]
            · rw [show escapeList (c :: cs) ++ '"' :: rest
                    = c :: (escapeList cs ++ '"' :: rest) by
                  simp [escapeList, escapeChar, h1, h2, h3, h4, h5]]
              rw [parseStrAux_other _ _ h1 h2, ih]
              simp

/-! ## The parser inverts the printer -/

theorem parseElemsFirst_cons_step (fuel : Nat) {c : Char} (cs : List Char)
    (hws : isWsChar c = false) (hne : c ≠ ']') :
    parseElemsFirst (fuel + 1) (c :: cs) =
      match parseVal fuel (c :: cs) with
      | some (v, r1) =>
        match parseElemsRest fuel r1 with
        | some (vs, r2) => some (v :: vs, r2)
        | none => none
      | none => none := by
  rw [parseElemsFirst, skipWs_cons_not _ hws]
  simp [hne]

theorem parse_emit (fuel : Nat) :
    (∀ v rest, need v ≤ fuel → noDigitHead rest →
       parseVal fuel (emit v ++ rest) = some (v, rest)) ∧
    (∀ xs rest, needElems xs ≤ fuel →
       parseElemsFirst fuel (emitElemsFirst xs ++ rest) = some (xs, rest)) ∧
    (∀ xs rest, needElems xs ≤ fuel →
       parseElemsRest fuel (emitElemsRest xs ++ rest) = some (xs, rest)) ∧
    (∀ (k : String) v rest, need v + 1 ≤ fuel → noDigitHead rest →
       parseOneField fuel (escapeList k.data ++ '"' :: ':' :: (emit v ++ rest))
         = some ((k, v), rest)) ∧
    (∀ kvs rest, needFields kvs ≤ fuel →
       parseFieldsFirst fuel (emitFieldsFirst kvs ++ rest) = some (kvs, rest)) ∧
    (∀ kvs rest, needFields kvs ≤ fuel →
       parseFieldsRest fuel (emitFieldsRest kvs ++ rest) = some (kvs, rest)) := by
  induction fuel with
  | zero =>
    refine ⟨fun v rest hle _ => absurd hle (by have := one_le_need v; omega),
            fun xs rest hle => absurd hle (by have := one_le_needElems xs; omega),
            fun xs rest hle => absurd hle (by have := one_le_needElems xs; omega),
            fun k v rest hle _ => absurd hle (by omega),
            fun kvs rest hle => absurd hle (by have := one_le_needFields kvs; omega),
            fun kvs rest hle => absurd hle (by have := one_le_needFields kvs; omega)⟩
  | succ fuel ih =>
    obtain ⟨ihV, ihE0, ihER, ihOF, ihF0, ihFR⟩ := ih
    have hV : ∀ v rest, need v ≤ fuel + 1 → noDigitHead rest →
        parseVal (fuel + 1) (emit v ++ rest) = some (v, rest) := by
      intro v rest hle hrest
      cases v with
      | null => exact parseVal_null_step fuel rest
      | bool b =>
        cases b
        · exact parseVal_false_step fuel rest
        · exact parseVal_true_step fuel rest
      | str s =>
        rw [show emit (Json.str s) ++ rest = '"' :: (escapeList s.data ++ '"' :: rest) by
              simp [emit, List.append_assoc]]
        rw [parseVal_str_step, parseStrAux_emit s.data [] rest]
        simp [string_mk_data]
      | num n =>
        by_cases hn : n < 0
        · obtain ⟨d, ds, hd, hdig⟩ := natDigits_cons n.natAbs
          rw [show emit (Json.num n) ++ rest = '-' :: d :: (ds ++ rest) by
                simp [emit, intChars, hn, hd]]
          rw [parseVal_neg_step fuel (ds ++ rest) hdig]
          have hspec := parseDigitsAux_spec (d :: ds) rest 0
              (by rw [← hd]; exact natDigits_all_digits n.natAbs) hrest
          rw [show (d :: (ds ++ rest)) = (d :: ds) ++ rest from rfl, hspec]
          simp only []
          rw [← hd, valOfDigits_natDigits]
          have hcast : -((n.natAbs : Int)) = n := by omega
          rw [hcast]
        · obtain ⟨d, ds, hd, hdig⟩ := natDigits_cons n.natAbs
          rw [show emit (Json.num n) ++ rest = d :: (ds ++ rest) by
                simp [emit, intChars, hn, hd]]
          rw [parseVal_digit_step fuel (ds ++ rest) hdig]
          have hspec := parseDigitsAux_spec (d :: ds) rest 0
              (by rw [← hd]; exact natDigits_all_digits n.natAbs) hrest
          rw [show (d :: (ds ++ rest)) = (d :: ds) ++ rest from rfl, hspec]
          simp only []
          rw [← hd, valOfDigits_natDigits]
          have hcast : ((n.natAbs : Int)) = n := by omega
          rw [hcast]
      | arr xs =>
        have hle2 : needElems xs ≤ fuel := by simp [need] at hle; omega
        rw [show emit (Json.arr xs) ++ rest = '[' :: (emitElemsFirst xs ++ rest) by
              simp [emit]]
        rw [parseVal_arr_step, ihE0 xs rest hle2]
      | obj kvs =>
        have hle2 : needFields kvs ≤ fuel := by simp [need] at hle; omega
        rw [show emit (Json.obj kvs) ++ rest = '{' :: (emitFieldsFirst kvs ++ rest) by
              simp [emit]]
        rw [parseVal_obj_step, ihF0 kvs rest hle2]
    have hE0 : ∀ xs rest, needElems xs ≤ fuel + 1 →
        parseElemsFirst (fuel + 1) (emitElemsFirst xs ++ rest) = some (xs, rest) := by
      intro xs rest hle
      cases xs with
      | nil => rfl
      | cons x xs =>
        obtain ⟨c, t, hct, hws, hcb, _, _, _⟩ := emit_head x
        have h1 : need x ≤ fuel := by
          simp [needElems] at hle; have := one_le_needElems xs; omega
        have h2 : needElems xs ≤ fuel := by
          simp [needElems] at hle; have := one_le_need x; omega
        rw [show emitElemsFirst (x :: xs) ++ rest
              = c :: (t ++ (emitElemsRest xs ++ rest)) by
            simp [emitElemsFirst, hct, List.append_assoc]]
        rw [parseElemsFirst_cons_step fuel _ hws hcb]
        rw [show c :: (t ++ (emitElemsRest xs ++ rest))
              = emit x ++ (emitElemsRest xs ++ rest) by rw [hct]; rfl]
        simp only [ihV x (emitElemsRest xs ++ rest) h1 (noDigitHead_emitElemsRest xs rest),
          ihER xs rest h2]
    have hER : ∀ xs rest, needElems xs ≤ fuel + 1 →
        parseElemsRest (fuel + 1) (emitElemsRest xs ++ rest) = some (xs, rest) := by
      intro xs rest hle
      cases xs with
      | nil => rfl
      | cons x xs =>
        have h1 : need x ≤ fuel := by
          simp [needElems] at hle; have := one_le_needElems xs; omega
        have h2 : needElems xs ≤ fuel := by
          simp [needElems] at hle; have := one_le_need x; omega
        rw [show emitElemsRest (x :: xs) ++ rest
              = ',' :: (emit x ++ (emitElemsRest xs ++ rest)) by
            simp [emitElemsRest, List.append_assoc]]
        rw [parseElemsRest_comma_step]
        simp only [ihV x (emitElemsRest xs ++ rest) h1 (noDigitHead_emitElemsRest xs rest),
          ihER xs rest h2]
    have hOF : ∀ (k : String) v rest, need v + 1 ≤ fuel + 1 → noDigitHead rest →
        parseOneField (fuel + 1) (escapeList k.data ++ '"' :: ':' :: (emit v ++ rest))
          = some ((k, v), rest) := by
      intro k v rest hle hrest
      have h1 : need v ≤ fuel := by omega
      rw [parseOneField]
      rw [show escapeList k.data ++ '"' :: ':' :: (emit v ++ rest)
            = escapeList k.data ++ '"' :: (':' :: (emit v ++ rest)) from rfl]
      rw [parseStrAux_emit k.data [] (':' :: (emit v ++ rest))]
      simp only [List.reverse_nil, List.nil_append, string_mk_data]
      rw [skipWs_cons_not _ (by decide)]
      simp only [ihV v rest h1 hrest]
      simp
    have hF0 : ∀ kvs rest, needFields kvs ≤ fuel + 1 →
        parseFieldsFirst (fuel + 1) (emitFieldsFirst kvs ++ rest) = some (kvs, rest) := by
      intro kvs rest hle
      cases kvs with
      | nil => rfl
      | cons kv kvs =>
        obtain ⟨k, v⟩ := kv
        have h1 : need v + 1 ≤ fuel := by
          simp [needFields] at hle; have := one_le_needFields kvs; omega
        have h2 : needFields kvs ≤ fuel := by
          simp [needFields] at hle; have := one_le_need v; omega
        rw [show emitFieldsFirst ((k, v) :: kvs) ++ rest
              = '"' :: (escapeList k.data ++ '"' :: ':'
                  :: (emit v ++ (emitFieldsRest kvs ++ rest))) by
            simp [emitFieldsFirst, List.append_assoc]]
        rw [parseFieldsFirst_quote_step]
        simp only [ihOF k v (emitFieldsRest kvs ++ rest) h1
          (noDigitHead_emitFieldsRest kvs rest), ihFR kvs rest h2]
    have hFR : ∀ kvs rest, needFields kvs ≤ fuel + 1 →
        parseFieldsRest (fuel + 1) (emitFieldsRest kvs ++ rest) = some (kvs, rest) := by
      intro kvs rest hle
      cases kvs with
      | nil => rfl
      | cons kv kvs =>
        obtain ⟨k, v⟩ := kv
        have h1 : need v + 1 ≤ fuel := by
          simp [needFields] at hle; have := one_le_needFields kvs; omega
        have h2 : needFields kvs ≤ fuel := by
          simp [needFields] at hle; have := one_le_need v; omega
        rw [show emitFieldsRest ((k, v) :: kvs) ++ rest
              = ',' :: '"' :: (escapeList k.data ++ '"' :: ':'
                  :: (emit v ++ (emitFieldsRest kvs ++ rest))) by
            simp [emitFieldsRest, List.append_assoc]]
        rw [parseFieldsRest_comma_step]
        simp only [ihOF k v (emitFieldsRest kvs ++ rest) h1
          (noDigitHead_emitFieldsRest kvs rest), ihFR kvs rest h2]
    exact ⟨hV, hE0, hER, hOF, hF0, hFR⟩

/-! ## Fuel sufficiency for printed values -/

theorem emitElemsRest_len (xs : List Json) :
    (emitElemsRest xs).length ≤ (emitElemsFirst xs).length + 1 := by
  cases xs <;> simp [emitElemsRest, emitElemsFirst]

theorem emitFieldsRest_len (kvs : List (String × Json)) :
    (emitFieldsRest kvs).length ≤ (emitFieldsFirst kvs).length + 1 := by
  cases kvs with
  | nil => simp [emitFieldsRest, emitFieldsFirst]
  | cons kv kvs =>
    obtain ⟨k, v⟩ := kv
    simp [emitFieldsRest, emitFieldsFirst]

mutual

theorem need_le_emit (v : Json) : need v ≤ 2 * (emit v).length := by
  cases v with
  | null => simp [need, emit]
  | bool b => cases b <;> simp [need, emit]
  | num n =>
    obtain ⟨d, ds, hd, _⟩ := natDigits_cons n.natAbs
    by_cases hn : n < 0 <;> simp [need, emit, intChars, hn, hd] <;> omega
  | str s => simp [need, emit]; omega
  | arr xs =>
    have h1 := needElems_le_emit xs
    have h2 := emitElemsRest_len xs
    have h3 := one_le_needElems xs
    simp only [need, emit, List.length_cons]
    omega
  | obj kvs =>
    have h1 := needFields_le_emit kvs
    have h2 := emitFieldsRest_len kvs
    have h3 := one_le_needFields kvs
    simp only [need, emit, List.length_cons]
    omega

theorem needElems_le_emit (xs : List Json) :
    needElems xs ≤ 2 * (emitElemsRest xs).length - 1 := by
  cases xs with
  | nil => simp [needElems, emitElemsRest]
  | cons x xs =>
    have h1 := need_le_emit x
    have h2 := needElems_le_emit xs
    have h3 := one_le_needElems xs
    simp only [needElems, emitElemsRest, List.length_cons, List.length_append]
    omega

theorem needFields_le_emit (kvs : List (String × Json)) :
    needFields kvs ≤ 2 * (emitFieldsRest kvs).length - 1 := by
  cases kvs with
  | nil => simp [needFields, emitFieldsRest]
  | cons kv kvs =>
    obtain ⟨k, v⟩ := kv
    have h1 := need_le_emit v
    have h2 := needFields_le_emit kvs
    have h3 := one_le_needFields kvs
    simp only [needFields, emitFieldsRest, List.length_cons, List.length_append]
    omega

end

/-- JSON.parse inverts JSON.stringify on every value of the model. -/
theorem jsonParse_stringify (v : Json) : jsonParse (jsonStringify v) = some v := by
  have hlen : (jsonStringify v).length = (emit v).length := rfl
  have h1 : need v ≤ 2 * (jsonStringify v).length + 2 := by
    have := need_le_emit v
    rw [hlen]
    omega
  have h2 := (parse_emit (2 * (jsonStringify v).length + 2)).1 v [] h1 trivial
  rw [List.append_nil] at h2
  unfold jsonParse
  rw [show (jsonStringify v).data = emit v from rfl, h2]
  rfl

/-! ## JavaScript value semantics used by the server -/

/-- Property access on a parsed JSON value: only objects have the
properties this layer reads; later duplicate keys shadow earlier ones. -/
def jlookup : List (String × Json) → String → Option Json
  | [], _ => none
  | (k, v) :: rest, key =>
    match jlookup rest key with
    | some r => some r
    | none => if k = key then some v else none

def jsGet : Json → String → Option Json
  | .obj fields, key => jlookup fields key
  | _, _ => none

/-- JavaScript truthiness of a JSON value. -/
def jsTruthy : Json → Bool
  | .null => false
  | .bool b => b
  | .num n => n != 0
  | .str s => s != ""
  | .arr _ => true
  | .obj _ => true

/-- Model of the .length property read by the tool handlers. -/
def jsLen : Json → Option Json
  | .arr xs => some (.num xs.length)
  | .str s => some (.num s.length)
  | _ => none

mutual

/-- Model of JavaScript template-literal coercion of a value to text. -/
def jsDisp : Json → String
  | .null => "null"
  | .bool true => "true"
  | .bool false => "false"
  | .num n => intDisp n
  | .str s => s
  | .arr xs => jsDispElems xs
  | .obj _ => "[object Object]"

def jsDispElems : List Json → String
  | [] => ""
  | [Json.null] => ""
  | [x] => jsDisp x
  | Json.null :: xs => "," ++ jsDispElems xs
  | x :: xs => jsDisp x ++ "," ++ jsDispElems xs

end

def jsDispO : Option Json → String
  | none => "undefined"
  | some v => jsDisp v

/-- A thrown JavaScript error as the dispatch boundary reads it:
optional numeric code, message, optional data payload. -/
structure JsError where
  code : Option Int
  message : String
  data : Option Json

/-- The upstream IRCTC client (src/irctcService.js): an external
collaborator issuing HTTPS calls, modelled as an oracle. Arguments are
the (possibly undefined) values the tool handlers pass through. -/
structure Upstream where
  searchStation : Option Json → Except JsError Json
  getTrainsBetweenStations : Option Json → Option Json → Option Json → Except JsError Json
  getTrainSchedule : Option Json → Except JsError Json
  checkSeatAvailability : Option Json → Option Json → Option Json → Json → Json →
    Except JsError Json
  getPNRStatus : Option Json → Except JsError Json

/-! ## JSON-RPC envelopes (src/server.js handleRequest, lines 69-82) -/

/-- JSON.stringify drops fields holding undefined, so an absent request
id produces an envelope without an id key. -/
def idField : Option Json → List (String × Json)
  | some v => [("id", v)]
  | none => []

def rpcResultEnv (result : Json) (id? : Option Json) : Json :=
  Json.obj ([("jsonrpc", Json.str "2.0"), ("result", result)] ++ idField id?)

/-- Model of the catch branch code default: error.code falsy gives -32603. -/
def errEnvCode (e : JsError) : Int :=
  match e.code with
  | some c => if c = 0 then -32603 else c
  | none => -32603

def errEnvMessage (e : JsError) : String :=
  if e.message = "" then "Internal error" else e.message

def errDataField : Option Json → List (String × Json)
  | some d => [("data", d)]
  | none => []

def rpcErrorEnv (e : JsError) (id? : Option Json) : Json :=
  Json.obj ([("jsonrpc", Json.str "2.0"),
    ("error", Json.obj ([("code", Json.num (errEnvCode e)),
      ("message", Json.str (errEnvMessage e))] ++ errDataField e.data))] ++ idField id?)

/-! ## Authentication gate (src/auth.js mcpAuth) -/

def exemptMethod (body : Json) : Bool :=
  match jsGet body "method" with
  | some (Json.str m) => m = "initialize" || m = "ping"
  | _ => false

/-- Model of the expression req.body?.id || null: falsy ids collapse to null. -/
def authId (body : Json) : Json :=
  match jsGet body "id" with
  | some v => if jsTruthy v then v else Json.null
  | none => Json.null

def unauthorizedEnv (code : Int) (data : String) (body : Json) : Json :=
  Json.obj [("jsonrpc", Json.str "2.0"),
    ("error", Json.obj [("code", Json.num code), ("message", Json.str "Unauthorized"),
      ("data", Json.str data)]),
    ("id", authId body)]

/-- Model of authHeader.split(' ')[1]. -/
def splitOnSpaceAux : List Char → List Char → List (List Char)
  | [], acc => [acc.reverse]
  | c :: cs, acc =>
    if c = ' ' then acc.reverse :: splitOnSpaceAux cs []
    else splitOnSpaceAux cs (c :: acc)

def headerToken (h : String) : String :=
  String.mk ((splitOnSpaceAux h.data []).getD 1 [])

/-- Model of authHeader.startsWith('Bearer '). -/
def headerHasBearer (h : String) : Bool :=
  List.isPrefixOf "Bearer ".data h.data

def noTokenData : String := "No Bearer token provided in Authorization header"

def badTokenData : String := "Invalid or expired token"

/-- The authentication middleware: none means next() was called; some is
the short-circuit HTTP response (status, body). The configured secret is
the trimmed nonempty API_BEARER_TOKEN (the process exits when unset). -/
def mcpAuth (secret : String) (authHeader : Option String) (body : Json) :
    Option (Nat × Json) :=
  if exemptMethod body then none
  else
    match authHeader with
    | none => some (200, unauthorizedEnv (-32600) noTokenData body)
    | some h =>
      if headerHasBearer h then
        if headerToken h = secret then none
        else some (200, unauthorizedEnv (-32001) badTokenData body)
      else some (200, unauthorizedEnv (-32600) noTokenData body)

/-! ## Discovery handlers (src/server.js MCPServer) -/

def initializeResult : Json :=
  Json.obj [
    ("protocolVersion", Json.str "2024-11-05"),
    ("capabilities", Json.obj [
      ("tools", Json.obj [("listChanged", Json.bool false)]),
      ("resources", Json.obj [("subscribe", Json.bool false),
        ("listChanged", Json.bool false)]),
      ("prompts", Json.obj [("listChanged", Json.bool false)]),
      ("logging", Json.obj [])]),
    ("serverInfo", Json.obj [
      ("name", Json.str "mcp-train-flight-server"),
      ("version", Json.str "1.0.0")])]

def schemaStrProp (description : String) : Json :=
  Json.obj [("type", Json.str "string"), ("description", Json.str description)]

def toolDescriptor (name description : String) (props : List (String × Json))
    (required : List String) : Json :=
  Json.obj [
    ("name", Json.str name),
    ("description", Json.str description),
    ("inputSchema", Json.obj [
      ("type", Json.str "object"),
      ("properties", Json.obj props),
      ("required", Json.arr (required.map Json.str))])]

def toolsListResult : Json :=
  Json.obj [("tools", Json.arr [
    toolDescriptor "search_trains" "Search for trains between two stations"
      [("from", schemaStrProp "Source station code or name"),
       ("to", schemaStrProp "Destination station code or name"),
       ("date", schemaStrProp "Travel date (YYYY-MM-DD)")]
      ["from", "to"],
    toolDescriptor "search_stations" "Search for railway stations"
      [("query", schemaStrProp "Station name or code to search")]
      ["query"],
    toolDescriptor "get_pnr_status" "Get PNR status for a train ticket"
      [("pnr", schemaStrProp "10-digit PNR number")]
      ["pnr"],
    toolDescriptor "get_train_schedule" "Get detailed schedule for a train"
      [("trainNo", schemaStrProp "Train number")]
      ["trainNo"],
    toolDescriptor "check_seat_availability" "Check seat availability for a train"
      [("trainNo", schemaStrProp "Train number"),
       ("from", schemaStrProp "Source station code"),
       ("to", schemaStrProp "Destination station code"),
       ("classType", schemaStrProp "Class type (SL, 3A, 2A, 1A)"),
       ("quota", schemaStrProp "Quota type (GN, TQ, etc.)")]
      ["trainNo", "from", "to"],
    toolDescriptor "search_flights" "Search for flight deals"
      [("query", schemaStrProp "Origin airport code or city"),
       ("limit", schemaStrProp "Number of results to return")]
      ["query"]])]

/-! ## Tool dispatcher (src/server.js handleToolCall and tool handlers) -/

def contentEnv (text : String) (data : Json) : Json :=
  Json.obj [("content", Json.arr [Json.obj [("type", Json.str "text"),
    ("text", Json.str text), ("data", data)]])]

/-- Parameter destructuring of the tool argument object: a TypeError is
thrown when the handler destructures undefined or null. -/
def destructureArgs : Option Json → Except JsError Json
  | none => .error ⟨none, "Cannot destructure property of undefined", none⟩
  | some Json.null => .error ⟨none, "Cannot destructure property of null", none⟩
  | some v => .ok v

def handleSearchTrains (U : Upstream) (args? : Option Json) : Except JsError Json := do
  let a ← destructureArgs args?
  let fromArg := jsGet a "from"
  let toArg := jsGet a "to"
  let dateArg := jsGet a "date"
  let trains ← U.getTrainsBetweenStations fromArg toArg dateArg
  pure (contentEnv ("Found " ++ jsDispO (jsLen trains) ++ " trains from "
    ++ jsDispO fromArg ++ " to " ++ jsDispO toArg) trains)

def handleSearchStations (U : Upstream) (args? : Option Json) : Except JsError Json := do
  let a ← destructureArgs args?
  let queryArg := jsGet a "query"
  let stations ← U.searchStation queryArg
  pure (contentEnv ("Found " ++ jsDispO (jsLen stations) ++ " stations matching \x27"
    ++ jsDispO queryArg ++ "\x27") stations)

def handleGetPNRStatus (U : Upstream) (args? : Option Json) : Except JsError Json := do
  let a ← destructureArgs args?
  let pnrArg := jsGet a "pnr"
  let statusVal ← U.getPNRStatus pnrArg
  pure (contentEnv ("PNR Status for " ++ jsDispO pnrArg) statusVal)

def handleGetTrainSchedule (U : Upstream) (args? : Option Json) : Except JsError Json := do
  let a ← destructureArgs args?
  let trainNoArg := jsGet a "trainNo"
  let schedule ← U.getTrainSchedule trainNoArg
  pure (contentEnv ("Schedule for train " ++ jsDispO trainNoArg) schedule)

def handleCheckSeatAvailability (U : Upstream) (args? : Option Json) :
    Except JsError Json := do
  let a ← destructureArgs args?
  let trainNoArg := jsGet a "trainNo"
  let fromArg := jsGet a "from"
  let toArg := jsGet a "to"
  let classTypeArg := (jsGet a "classType").getD (Json.str "3A")
  let quotaArg := (jsGet a "quota").getD (Json.str "GN")
  let availability ← U.checkSeatAvailability trainNoArg fromArg toArg classTypeArg quotaArg
  pure (contentEnv ("Seat availability for train " ++ jsDispO trainNoArg) availability)

/-- handleSearchFlights references getFlightDeals, which is neither defined
nor imported in src/server.js; evaluating the identifier throws a
ReferenceError before any upstream call happens. -/
def handleSearchFlights (_U : Upstream) (args? : Option Json) : Except JsError Json := do
  let _a ← destructureArgs args?
  Except.error ⟨none, "getFlightDeals is not defined", none⟩

def toolNames : List String :=
  ["search_trains", "search_stations", "get_pnr_status", "get_train_schedule",
   "check_seat_availability", "search_flights"]

def handleToolCall (U : Upstream) (ps : Json) : Except JsError Json :=
  let args? := jsGet ps "arguments"
  match jsGet ps "name" with
  | some (Json.str n) =>
    if n = "search_trains" then handleSearchTrains U args?
    else if n = "search_stations" then handleSearchStations U args?
    else if n = "get_pnr_status" then handleGetPNRStatus U args?
    else if n = "get_train_schedule" then handleGetTrainSchedule U args?
    else if n = "check_seat_availability" then handleCheckSeatAvailability U args?
    else if n = "search_flights" then handleSearchFlights U args?
    else .error ⟨none, "Unknown tool: " ++ n, none⟩
  | other => .error ⟨none, "Unknown tool: " ++ jsDispO other, none⟩

/-! ## Method registry and request dispatch (src/server.js MCPServer) -/

def handleInitialize (_ps : Json) : Except JsError Json := .ok initializeResult

def handleToolsList (_ps : Json) : Except JsError Json := .ok toolsListResult

def handleInitialized (_ps : Json) : Except JsError Json := .ok Json.null

def handlePing (_ps : Json) : Except JsError Json := .ok (Json.str "pong")

def registeredMethods : List String :=
  ["initialize", "tools/list", "tools/call", "notifications/initialized", "ping"]

def callHandler (U : Upstream) (m : String) (ps : Json) : Except JsError Json :=
  if m = "initialize" then handleInitialize ps
  else if m = "tools/list" then handleToolsList ps
  else if m = "tools/call" then handleToolCall U ps
  else if m = "notifications/initialized" then handleInitialized ps
  else if m = "ping" then handlePing ps
  else .error ⟨none, "Method not found: " ++ m, none⟩

/-- Model of the expression params or empty object: handler(params or {}). -/
def paramsOrEmpty : Option Json → Json
  | some v => if jsTruthy v then v else Json.obj []
  | none => Json.obj []

def invalidVersionError : JsError := ⟨none, "Invalid JSON-RPC version", none⟩

/-- handleRequest, instrumented with the list of registered method
handlers it invokes. The Except.error side is a throw escaping
handleRequest (caught by the route-level catch); the Except.ok side is
the JSON-RPC envelope it resolves with. -/
def handleRequestT (U : Upstream) (payload : Json) :
    Except JsError Json × List String :=
  match payload with
  | Json.null => (.error ⟨none, "Cannot destructure property of null", none⟩, [])
  | p =>
    match jsGet p "jsonrpc" with
    | some (Json.str ver) =>
      if ver = "2.0" then
        match jsGet p "method" with
        | some (Json.str m) =>
          if m ∈ registeredMethods then
            match callHandler U m (paramsOrEmpty (jsGet p "params")) with
            | .ok r => (.ok (rpcResultEnv r (jsGet p "id")), [m])
            | .error e => (.ok (rpcErrorEnv e (jsGet p "id")), [m])
          else (.error ⟨none, "Method not found: " ++ m, none⟩, [])
        | mv => (.error ⟨none, "Method not found: " ++ jsDispO mv, none⟩, [])
      else (.error invalidVersionError, [])
    | _ => (.error invalidVersionError, [])

def handleRequest (U : Upstream) (payload : Json) : Except JsError Json :=
  (handleRequestT U payload).1

/-! ## Payload normalization (src/server.js app.post, lines 283-317) -/

def dropEdgeQuotes (l : List Char) : List Char :=
  ((l.dropWhile (fun c => c = '"')).reverse.dropWhile (fun c => c = '"')).reverse

def replaceEscQuote : List Char → List Char
  | [] => []
  | '\\' :: '"' :: rest => '"' :: replaceEscQuote rest
  | c :: rest => c :: replaceEscQuote rest

def replaceEscBackslash : List Char → List Char
  | [] => []
  | '\\' :: '\\' :: rest => '\\' :: replaceEscBackslash rest
  | c :: rest => c :: replaceEscBackslash rest

/-- Model of the cleanup pass: strip leading/trailing quotes, unescape
escaped quotes, then unescape escaped backslashes. -/
def cleanupBody (s : String) : String :=
  String.mk (replaceEscBackslash (replaceEscQuote (dropEdgeQuotes s.data)))

/-- Placeholder for the engine-specific JSON.parse error message. -/
def parseFailMsg : String := "Unexpected token"

def normalizePayload (body : Json) : Except String Json :=
  match body with
  | Json.str s =>
    match jsonParse s with
    | some v =>
      match v with
      | Json.str s2 =>
        match jsonParse s2 with
        | some v2 => .ok v2
        | none => .ok (Json.str s2)
      | other => .ok other
    | none =>
      match jsonParse (cleanupBody s) with
      | some v => .ok v
      | none => .error parseFailMsg
  | other => .ok other

/-! ## The protocol endpoint (src/server.js app.post) -/

def parseErrorEnv (emsg : String) : Json :=
  Json.obj [("jsonrpc", Json.str "2.0"),
    ("error", Json.obj [("code", Json.num (-32700)), ("message", Json.str "Parse error"),
      ("data", Json.str ("Invalid JSON: " ++ emsg))]),
    ("id", Json.null)]

def internalErrorEnv (emsg : String) : Json :=
  Json.obj [("jsonrpc", Json.str "2.0"),
    ("error", Json.obj [("code", Json.num (-32603)), ("message", Json.str "Internal error"),
      ("data", Json.str emsg)]),
    ("id", Json.null)]

/-- Promise.all over the batch: the first rejection rejects the whole
join, otherwise the results keep input order. -/
def listAll : List (Except JsError Json) → Except JsError (List Json)
  | [] => .ok []
  | .error e :: _ => .error e
  | .ok x :: rest =>
    match listAll rest with
    | .ok xs => .ok (x :: xs)
    | .error e => .error e

/-- The route handler body after authentication: HTTP status and body. -/
def mcpRoute (U : Upstream) (body : Json) : Nat × Json :=
  match normalizePayload body with
  | .error emsg => (400, parseErrorEnv emsg)
  | .ok (Json.arr reqs) =>
    match listAll (reqs.map (fun r => handleRequest U r)) with
    | .ok resps => (200, Json.arr resps)
    | .error e => (500, internalErrorEnv e.message)
  | .ok payload =>
    match handleRequest U payload with
    | .ok resp => (200, resp)
    | .error e => (500, internalErrorEnv e.message)

/-- POST /mcp: the authentication middleware runs first, on the raw
transport-parsed body; the route handler runs only when it calls next. -/
def mcpEndpoint (U : Upstream) (secret : String) (authHeader : Option String)
    (body : Json) : Nat × Json :=
  match mcpAuth secret authHeader body with
  | some resp => resp
  | none => mcpRoute U body

/-- A concrete upstream oracle used to instantiate witnesses. -/
def stubUpstream : Upstream where
  searchStation _ := .ok Json.null
  getTrainsBetweenStations _ _ _ := .ok Json.null
  getTrainSchedule _ := .ok Json.null
  checkSeatAvailability _ _ _ _ _ := .ok Json.null
  getPNRStatus _ := .ok Json.null

/-! ## Well-formedness of JSON-RPC envelopes -/

/-- An error member holding at least code and message. -/
def errShape (e : Json) : Prop :=
  ∃ efs, e = Json.obj efs ∧
    (jlookup efs "code").isSome ∧ (jlookup efs "message").isSome

/-- A complete JSON-RPC 2.0 envelope: version tag and exactly one of
result and error. -/
def isEnvelope (j : Json) : Prop :=
  ∃ fields, j = Json.obj fields ∧
    jlookup fields "jsonrpc" = some (Json.str "2.0") ∧
    (((jlookup fields "result").isSome ∧ jlookup fields "error" = none) ∨
     (jlookup fields "result" = none ∧
       ∃ e, jlookup fields "error" = some e ∧ errShape e))

def envelopeOrBatch (j : Json) : Prop :=
  isEnvelope j ∨ ∃ xs, j = Json.arr xs ∧ ∀ x ∈ xs, isEnvelope x

theorem jlookup_append (l1 l2 : List (String × Json)) (key : String) :
    jlookup (l1 ++ l2) key =
      match jlookup l2 key with
      | some r => some r
      | none => jlookup l1 key := by
  induction l1 with
  | nil =>
    cases h2 : jlookup l2 key <;> simp [jlookup, h2]
  | cons a l1 ih =>
    obtain ⟨k, v⟩ := a
    cases h2 : jlookup l2 key <;> simp [jlookup, ih, h2]

theorem jsGet_rpcResultEnv_id (r : Json) (id? : Option Json) :
    jsGet (rpcResultEnv r id?) "id" = id? := by
  cases id? <;> simp [rpcResultEnv, idField, jsGet, jlookup]

theorem jsGet_rpcErrorEnv_id (e : JsError) (id? : Option Json) :
    jsGet (rpcErrorEnv e id?) "id" = id? := by
  cases id? <;> simp [rpcErrorEnv, idField, jsGet, jlookup]

theorem isEnvelope_rpcResultEnv (r : Json) (id? : Option Json) :
    isEnvelope (rpcResultEnv r id?) := by
  cases id? <;>
    exact ⟨_, rfl, by simp [idField, jlookup], Or.inl ⟨by simp [idField, jlookup],
      by simp [idField, jlookup]⟩⟩

theorem isEnvelope_rpcErrorEnv (e : JsError) (id? : Option Json) :
    isEnvelope (rpcErrorEnv e id?) := by
  obtain ⟨c, m, d⟩ := e
  cases id? <;> cases d <;>
  · refine ⟨_, rfl, by simp [idField, errDataField, jlookup],
      Or.inr ⟨by simp [idField, errDataField, jlookup], ?_⟩⟩
    refine ⟨_, rfl, ?_⟩
    exact ⟨_, rfl, by simp [errDataField, jlookup], by simp [errDataField, jlookup]⟩

theorem isEnvelope_unauthorizedEnv (code : Int) (data : String) (body : Json) :
    isEnvelope (unauthorizedEnv code data body) := by
  refine ⟨_, rfl, by simp [jlookup], Or.inr ⟨by simp [jlookup], _, rfl, ?_⟩⟩
  exact ⟨_, rfl, by simp [jlookup], by simp [jlookup]⟩

theorem isEnvelope_parseErrorEnv (emsg : String) :
    isEnvelope (parseErrorEnv emsg) := by
  refine ⟨_, rfl, by simp [jlookup], Or.inr ⟨by simp [jlookup], _, rfl, ?_⟩⟩
  exact ⟨_, rfl, by simp [jlookup], by simp [jlookup]⟩

theorem isEnvelope_internalErrorEnv (emsg : String) :
    isEnvelope (internalErrorEnv emsg) := by
  refine ⟨_, rfl, by simp [jlookup], Or.inr ⟨by simp [jlookup], _, rfl, ?_⟩⟩
  exact ⟨_, rfl, by simp [jlookup], by simp [jlookup]⟩

/-! ## Dispatch classification lemmas -/

theorem jsGet_some_obj {p : Json} {key : String} {v : Json}
    (h : jsGet p key = some v) : ∃ fields, p = Json.obj fields := by
  cases p <;> simp [jsGet] at h ⊢

/-- Dispatch of a request that passes the version check and hits a
registered handler: the handler runs and its outcome is wrapped into an
envelope echoing the request id. -/
theorem handleRequestT_valid (U : Upstream) {p : Json} {m : String}
    (hv : jsGet p "jsonrpc" = some (Json.str "2.0"))
    (hm : jsGet p "method" = some (Json.str m))
    (hreg : m ∈ registeredMethods) :
    handleRequestT U p =
      (match callHandler U m (paramsOrEmpty (jsGet p "params")) with
       | .ok r => .ok (rpcResultEnv r (jsGet p "id"))
       | .error e => .ok (rpcErrorEnv e (jsGet p "id")), [m]) := by
  obtain ⟨fields, rfl⟩ := jsGet_some_obj hv
  unfold handleRequestT
  simp only [hv, hm, hreg, if_true]
  cases hc : callHandler U m (paramsOrEmpty (jsGet (Json.obj fields) "params")) <;>
    simp only [hc]

theorem handleRequestT_invalid_version (U : Upstream) {p : Json}
    (h : jsGet p "jsonrpc" ≠ some (Json.str "2.0")) :
    ∃ e, handleRequestT U p = (.error e, []) := by
  cases p with
  | null => exact ⟨_, rfl⟩
  | bool b => exact ⟨invalidVersionError, rfl⟩
  | num n => exact ⟨invalidVersionError, rfl⟩
  | str s => exact ⟨invalidVersionError, rfl⟩
  | arr xs => exact ⟨invalidVersionError, rfl⟩
  | obj fields =>
    unfold handleRequestT
    cases hj : jsGet (Json.obj fields) "jsonrpc" with
    | none => exact ⟨invalidVersionError, by simp [hj]⟩
    | some v =>
      cases v with
      | str ver =>
        have hne : ver ≠ "2.0" := by rintro rfl; exact h hj
        exact ⟨invalidVersionError, by simp [hj, hne]⟩
      | null => exact ⟨invalidVersionError, by simp [hj]⟩
      | bool b => exact ⟨invalidVersionError, by simp [hj]⟩
      | num n => exact ⟨invalidVersionError, by simp [hj]⟩
      | arr xs => exact ⟨invalidVersionError, by simp [hj]⟩
      | obj kvs => exact ⟨invalidVersionError, by simp [hj]⟩

/-- Every envelope handleRequest resolves with is complete and echoes
the request id (absent id echoes as absent). -/
theorem handleRequestT_ok {U : Upstream} {p env : Json} {tr : List String}
    (h : handleRequestT U p = (.ok env, tr)) :
    isEnvelope env ∧ jsGet env "id" = jsGet p "id" := by
  unfold handleRequestT at h
  split at h
  · simp at h
  · next q =>
    split at h
    · next ver hj =>
      split at h
      · split at h
        · next m hm =>
          split at h
          · split at h
            · next r hc =>
              simp only [Prod.mk.injEq] at h
              obtain ⟨h1, _⟩ := h
              cases h1
              exact ⟨isEnvelope_rpcResultEnv _ _, jsGet_rpcResultEnv_id _ _⟩
            · next e hc =>
              simp only [Prod.mk.injEq] at h
              obtain ⟨h1, _⟩ := h
              cases h1
              exact ⟨isEnvelope_rpcErrorEnv _ _, jsGet_rpcErrorEnv_id _ _⟩
          · simp at h
        · simp at h
      · simp at h
    · simp at h

theorem handleRequest_ok {U : Upstream} {p env : Json}
    (h : handleRequest U p = .ok env) :
    isEnvelope env ∧ jsGet env "id" = jsGet p "id" := by
  unfold handleRequest at h
  rcases hT : handleRequestT U p with ⟨res, tr⟩
  rw [hT] at h
  simp at h
  cases h
  exact handleRequestT_ok hT

/-! ## Authentication and route shape lemmas -/

/-- The error member of an envelope, then one of its fields. -/
def errField (env : Json) (key : String) : Option Json :=
  match jsGet env "error" with
  | some e => jsGet e key
  | none => none

theorem jsGet_unauthorizedEnv_id (code : Int) (data : String) (body : Json) :
    jsGet (unauthorizedEnv code data body) "id" = some (authId body) := by
  simp [unauthorizedEnv, jsGet, jlookup]

theorem mcpAuth_some {secret : String} {hdr : Option String} {body : Json}
    {resp : Nat × Json} (h : mcpAuth secret hdr body = some resp) :
    ∃ c d, resp = (200, unauthorizedEnv c d body) := by
  unfold mcpAuth at h
  split at h
  · simp at h
  · split at h
    · simp at h
      exact ⟨_, _, h.symm⟩
    · split at h
      · split at h
        · simp at h
        · simp at h
          exact ⟨_, _, h.symm⟩
      · simp at h
        exact ⟨_, _, h.symm⟩

theorem listAll_ok_mem {l : List (Except JsError Json)} {xs : List Json}
    (h : listAll l = .ok xs) : ∀ x ∈ xs, Except.ok x ∈ l := by
  induction l generalizing xs with
  | nil =>
    simp [listAll] at h
    subst h
    simp
  | cons a l ih =>
    cases a with
    | error e => simp [listAll] at h
    | ok v =>
      unfold listAll at h
      cases hl : listAll l with
      | error e => rw [hl] at h; simp at h
      | ok ys =>
        rw [hl] at h
        simp at h
        subst h
        intro x hx
        rcases List.mem_cons.mp hx with hx | hx
        · subst hx; exact List.mem_cons_self _ _
        · exact List.mem_cons_of_mem _ (ih hl x hx)

theorem mcpRoute_shape (U : Upstream) (body : Json) :
    envelopeOrBatch (mcpRoute U body).2 ∧
    ((mcpRoute U body).1 = 200 ∨ (mcpRoute U body).1 = 400 ∨
      (mcpRoute U body).1 = 500) := by
  unfold mcpRoute
  cases hn : normalizePayload body with
  | error emsg =>
    exact ⟨Or.inl (isEnvelope_parseErrorEnv emsg), Or.inr (Or.inl rfl)⟩
  | ok payload =>
    cases payload with
    | arr reqs =>
      cases hb : listAll (reqs.map (fun r => handleRequest U r)) with
      | ok resps =>
        simp only [hb]
        refine ⟨Or.inr ⟨resps, rfl, ?_⟩, by simp⟩
        intro x hx
        have hmem := listAll_ok_mem hb x hx
        obtain ⟨r, _, hr⟩ := List.mem_map.mp hmem
        exact (handleRequest_ok hr).1
      | error e =>
        simp only [hb]
        exact ⟨Or.inl (isEnvelope_internalErrorEnv e.message), by simp⟩
    | null =>
      cases hr : handleRequest U Json.null with
      | ok env =>
        simp only [hr]
        exact ⟨Or.inl (handleRequest_ok hr).1, by simp⟩
      | error e =>
        simp only [hr]
        exact ⟨Or.inl (isEnvelope_internalErrorEnv e.message), by simp⟩
    | bool b =>
      cases hr : handleRequest U (Json.bool b) with
      | ok env =>
        simp only [hr]
        exact ⟨Or.inl (handleRequest_ok hr).1, by simp⟩
      | error e =>
        simp only [hr]
        exact ⟨Or.inl (isEnvelope_internalErrorEnv e.message), by simp⟩
    | num n =>
      cases hr : handleRequest U (Json.num n) with
      | ok env =>
        simp only [hr]
        exact ⟨Or.inl (handleRequest_ok hr).1, by simp⟩
      | error e =>
        simp only [hr]
        exact ⟨Or.inl (isEnvelope_internalErrorEnv e.message), by simp⟩
    | str s =>
      cases hr : handleRequest U (Json.str s) with
      | ok env =>
        simp only [hr]
        exact ⟨Or.inl (handleRequest_ok hr).1, by simp⟩
      | error e =>
        simp only [hr]
        exact ⟨Or.inl (isEnvelope_internalErrorEnv e.message), by simp⟩
    | obj fields =>
      cases hr : handleRequest U (Json.obj fields) with
      | ok env =>
        simp only [hr]
        exact ⟨Or.inl (handleRequest_ok hr).1, by simp⟩
      | error e =>
        simp only [hr]
        exact ⟨Or.inl (isEnvelope_internalErrorEnv e.message), by simp⟩

theorem jsGet_rpcErrorEnv_result (e : JsError) (id? : Option Json) :
    jsGet (rpcErrorEnv e id?) "result" = none := by
  cases id? <;> simp [rpcErrorEnv, idField, jsGet, jlookup]

theorem paramsOrEmpty_obj (fields : List (String × Json)) :
    paramsOrEmpty (some (Json.obj fields)) = Json.obj fields := by
  simp [paramsOrEmpty, jsTruthy]

/-- handleSearchFlights never succeeds: either the parameter
destructuring throws, or the missing getFlightDeals reference throws. -/
theorem handleSearchFlights_error (U : Upstream) (args? : Option Json) :
    ∃ e, handleSearchFlights U args? = .error e ∧ e.code = none := by
  cases args? with
  | none => exact ⟨_, rfl, rfl⟩
  | some v => cases v <;> exact ⟨_, rfl, rfl⟩

theorem jsGet_rpcErrorEnv_error (e : JsError) (id? : Option Json) :
    jsGet (rpcErrorEnv e id?) "error"
      = some (Json.obj ([("code", Json.num (errEnvCode e)),
          ("message", Json.str (errEnvMessage e))] ++ errDataField e.data)) := by
  cases id? <;> simp [rpcErrorEnv, idField, jsGet, jlookup]

theorem errField_rpcErrorEnv_code (e : JsError) (id? : Option Json) :
    errField (rpcErrorEnv e id?) "code" = some (Json.num (errEnvCode e)) := by
  obtain ⟨c, m, d⟩ := e
  cases id? <;> cases d <;>
    simp [errField, rpcErrorEnv, idField, errDataField, jsGet, jlookup]

theorem listAll_map_ok (U : Upstream) (reqs : List Json)
    (h : ∀ r ∈ reqs, ∃ env, handleRequest U r = .ok env) :
    ∃ resps, listAll (reqs.map (fun r => handleRequest U r)) = .ok resps ∧
      List.Forall₂ (fun req resp => handleRequest U req = .ok resp ∧
        jsGet resp "id" = jsGet req "id") reqs resps := by
  induction reqs with
  | nil => exact ⟨[], rfl, List.Forall₂.nil⟩
  | cons r rs ih =>
    obtain ⟨env, he⟩ := h r (by simp)
    obtain ⟨resps, hl, hf⟩ := ih (fun x hx => h x (by simp [hx]))
    refine ⟨env :: resps, ?_, List.Forall₂.cons ⟨he, (handleRequest_ok he).2⟩ hf⟩
    simp [listAll, he, hl]

/-! ## Concrete request bodies used in witnesses and counterexamples -/

def pingBody : Json :=
  Json.obj [("jsonrpc", Json.str "2.0"), ("method", Json.str "ping"),
    ("id", Json.num 5)]

def toolsListBodyIdZero : Json :=
  Json.obj [("jsonrpc", Json.str "2.0"), ("method", Json.str "tools/list"),
    ("id", Json.num 0)]

def badVersionBody : Json :=
  Json.obj [("jsonrpc", Json.str "1.0"), ("method", Json.str "ping"),
    ("id", Json.num 1)]

def unknownMethodBody : Json :=
  Json.obj [("jsonrpc", Json.str "2.0"), ("method", Json.str "bogus"),
    ("id", Json.num 1)]

def bogusToolBody : Json :=
  Json.obj [("jsonrpc", Json.str "2.0"), ("method", Json.str "tools/call"),
    ("params", Json.obj [("name", Json.str "bogus")]), ("id", Json.num 3)]

def flightsToolBody : Json :=
  Json.obj [("jsonrpc", Json.str "2.0"), ("method", Json.str "tools/call"),
    ("params", Json.obj [("name", Json.str "search_flights"),
      ("arguments", Json.obj [("query", Json.str "DEL")])]), ("id", Json.num 4)]

def isHttpSuccess (n : Nat) : Bool := decide (200 ≤ n ∧ n < 300)

/-! ## Claims -/

/-- C1 (amended): the body of every response from the protocol endpoint is
a complete JSON-RPC envelope (exactly one of result/error, with the
version tag) or, for batches, an array of such envelopes, and the HTTP
status is one of 200, 400 and 500. The original claim that the status is
always a success status fails: total parse failure returns 400 and an
error thrown during dispatch returns 500 (see the counterexample). -/
theorem C1_envelopes (U : Upstream) (secret : String) (hdr : Option String)
    (body : Json) :
    envelopeOrBatch (mcpEndpoint U secret hdr body).2 ∧
    ((mcpEndpoint U secret hdr body).1 = 200 ∨ (mcpEndpoint U secret hdr body).1 = 400 ∨
      (mcpEndpoint U secret hdr body).1 = 500) := by
  unfold mcpEndpoint
  cases ha : mcpAuth secret hdr body with
  | some resp =>
    obtain ⟨c, d, rfl⟩ := mcpAuth_some ha
    exact ⟨Or.inl (isEnvelope_unauthorizedEnv c d body), Or.inl rfl⟩
  | none => exact mcpRoute_shape U body

/-- C1 counterexample: an authenticated request whose body is the
unparseable string hello is answered with HTTP 400, not a success
status, refuting the claim as stated. -/
theorem C1_counterexample :
    (mcpEndpoint stubUpstream "s" (some "Bearer s") (Json.str "hello")).1 = 400 ∧
    isHttpSuccess (mcpEndpoint stubUpstream "s" (some "Bearer s") (Json.str "hello")).1
      = false := ⟨rfl, rfl⟩

/-- C2 (amended): for a non-exempt request, a missing (or non-Bearer)
Authorization header and a mismatched bearer token both yield HTTP 200
JSON-RPC error envelopes with the same message Unauthorized and the same
id coercion, but the error shapes are not identical: the codes differ
(-32600 for absence, -32001 for mismatch) and the data strings differ. -/
theorem C2_unauthorized_shapes (secret : String) (h : String) (body : Json)
    (hex : exemptMethod body = false) (hb : headerHasBearer h = true)
    (hmis : headerToken h ≠ secret) :
    mcpAuth secret none body = some (200, unauthorizedEnv (-32600) noTokenData body) ∧
    mcpAuth secret (some h) body
      = some (200, unauthorizedEnv (-32001) badTokenData body) ∧
    errField (unauthorizedEnv (-32600) noTokenData body) "message"
      = errField (unauthorizedEnv (-32001) badTokenData body) "message" ∧
    errField (unauthorizedEnv (-32600) noTokenData body) "code"
      = some (Json.num (-32600)) ∧
    errField (unauthorizedEnv (-32001) badTokenData body) "code"
      = some (Json.num (-32001)) ∧
    noTokenData ≠ badTokenData := by
  refine ⟨?_, ?_, rfl, rfl, rfl, by simp [noTokenData, badTokenData]⟩
  · simp [mcpAuth, hex]
  · simp [mcpAuth, hex, hb, hmis]

/-- C2 witness: the amended claim at a concrete non-exempt request with
secret s and the wrong token. -/
theorem C2_witness :
    mcpAuth "s" none toolsListBodyIdZero
      = some (200, unauthorizedEnv (-32600) noTokenData toolsListBodyIdZero) ∧
    mcpAuth "s" (some "Bearer wrong") toolsListBodyIdZero
      = some (200, unauthorizedEnv (-32001) badTokenData toolsListBodyIdZero) ∧
    errField (unauthorizedEnv (-32600) noTokenData toolsListBodyIdZero) "message"
      = errField (unauthorizedEnv (-32001) badTokenData toolsListBodyIdZero) "message" ∧
    errField (unauthorizedEnv (-32600) noTokenData toolsListBodyIdZero) "code"
      = some (Json.num (-32600)) ∧
    errField (unauthorizedEnv (-32001) badTokenData toolsListBodyIdZero) "code"
      = some (Json.num (-32001)) ∧
    noTokenData ≠ badTokenData :=
  C2_unauthorized_shapes "s" "Bearer wrong" toolsListBodyIdZero rfl rfl (by decide)

/-- C2 counterexample: missing header and mismatched token do not yield
the same error shape: the codes are -32600 and -32001 respectively. -/
theorem C2_counterexample :
    (mcpAuth "s" none toolsListBodyIdZero).map (fun r => errField r.2 "code")
      = some (some (Json.num (-32600))) ∧
    (mcpAuth "s" (some "Bearer wrong") toolsListBodyIdZero).map
        (fun r => errField r.2 "code")
      = some (some (Json.num (-32001))) ∧
    ((-32600 : Int) ≠ -32001) := ⟨rfl, rfl, by decide⟩

/-- C3: a request whose declared protocol version (the jsonrpc field)
differs from the single supported value 2.0 is rejected before dispatch:
handleRequest throws, and no registered method handler is invoked. -/
theorem C3_invalid_version (U : Upstream) (p : Json)
    (h : jsGet p "jsonrpc" ≠ some (Json.str "2.0")) :
    (∃ e, (handleRequestT U p).1 = Except.error e) ∧
    (handleRequestT U p).2 = [] := by
  obtain ⟨e, he⟩ := handleRequestT_invalid_version U h
  exact ⟨⟨e, by rw [he]⟩, by rw [he]⟩

/-- C3 witness: a concrete request declaring version 1.0. -/
theorem C3_witness :
    (∃ e, (handleRequestT stubUpstream badVersionBody).1 = Except.error e) ∧
    (handleRequestT stubUpstream badVersionBody).2 = [] :=
  C3_invalid_version stubUpstream badVersionBody
    (by simp [badVersionBody, jsGet, jlookup])

/-- C4 (amended): the authentication bypass for the bootstrap methods
applies when the raw transport-parsed body is an object whose method
field is the string initialize or ping; for such bodies the endpoint
behaves as if no authentication gate existed, regardless of the
Authorization header. A string-encoded body that only normalizes to an
exempt method later is NOT exempt, because the gate inspects the raw
body before normalization (see the counterexample). -/
theorem C4_exempt_bypass (U : Upstream) (secret : String) (hdr : Option String)
    (body : Json) (h : exemptMethod body = true) :
    mcpEndpoint U secret hdr body = mcpRoute U body := by
  unfold mcpEndpoint mcpAuth
  simp [h]

/-- C4 witness: a ping request object with no Authorization header is
dispatched as if unauthenticated access were allowed. -/
theorem C4_witness :
    mcpEndpoint stubUpstream "s" none pingBody = mcpRoute stubUpstream pingBody :=
  C4_exempt_bypass stubUpstream "s" none pingBody rfl

/-- C4 counterexample: the string-encoded ping request does normalize to
the ping object, yet without a token the gate rejects it with an
Unauthorized error envelope instead of bypassing authentication. -/
theorem C4_counterexample :
    normalizePayload (Json.str (jsonStringify pingBody)) = Except.ok pingBody ∧
    mcpEndpoint stubUpstream "s" none (Json.str (jsonStringify pingBody))
      = (200, unauthorizedEnv (-32600) noTokenData (Json.str (jsonStringify pingBody))) ∧
    errField (unauthorizedEnv (-32600) noTokenData (Json.str (jsonStringify pingBody)))
        "message" = some (Json.str "Unauthorized") ∧
    jsGet (unauthorizedEnv (-32600) noTokenData (Json.str (jsonStringify pingBody)))
        "result" = none := by
  refine ⟨?_, rfl, rfl, rfl⟩
  have hred : normalizePayload (Json.str (jsonStringify pingBody))
      = match jsonParse (jsonStringify pingBody) with
        | some v =>
          match v with
          | Json.str s2 =>
            match jsonParse s2 with
            | some v2 => Except.ok v2
            | none => Except.ok (Json.str s2)
          | other => Except.ok other
        | none =>
          match jsonParse (cleanupBody (jsonStringify pingBody)) with
          | some v => Except.ok v
          | none => Except.error parseFailMsg := rfl
  rw [hred, jsonParse_stringify]
  rfl

/-- C5 (amended): a batch whose every element dispatches without a
throw (version 2.0 objects with registered methods) is answered by a
sequence of the same length whose i-th element is the dispatch result of
the i-th request, echoing its id: the response list is related to the
request list by an order-preserving pointwise correspondence. A batch
containing an element whose dispatch throws (for example an unregistered
method) collapses to a single HTTP 500 envelope instead (see the
counterexample). -/
theorem C5_batch (U : Upstream) (reqs : List Json)
    (h : ∀ r ∈ reqs, ∃ env, handleRequest U r = Except.ok env) :
    ∃ resps, mcpRoute U (Json.arr reqs) = (200, Json.arr resps) ∧
      List.Forall₂ (fun req resp => handleRequest U req = Except.ok resp ∧
        jsGet resp "id" = jsGet req "id") reqs resps := by
  obtain ⟨resps, hl, hf⟩ := listAll_map_ok U reqs h
  refine ⟨resps, ?_, hf⟩
  unfold mcpRoute normalizePayload
  simp [hl]

/-- C5 witness: a two-element batch of ping and tools/list. -/
theorem C5_witness :
    ∃ resps, mcpRoute stubUpstream (Json.arr [pingBody, toolsListBodyIdZero])
        = (200, Json.arr resps) ∧
      List.Forall₂ (fun req resp => handleRequest stubUpstream req = Except.ok resp ∧
        jsGet resp "id" = jsGet req "id") [pingBody, toolsListBodyIdZero] resps :=
  C5_batch stubUpstream [pingBody, toolsListBodyIdZero] (by
    intro r hr
    simp at hr
    rcases hr with rfl | rfl
    · exact ⟨_, rfl⟩
    · exact ⟨_, rfl⟩)

/-- C5 counterexample: a batch of one request object with an
unregistered method is not answered by a one-element sequence but by a
single HTTP 500 error envelope. -/
theorem C5_counterexample :
    (mcpEndpoint stubUpstream "s" (some "Bearer s") (Json.arr [unknownMethodBody])).1
      = 500 ∧
    ∀ xs, (mcpEndpoint stubUpstream "s" (some "Bearer s")
      (Json.arr [unknownMethodBody])).2 ≠ Json.arr xs := by
  refine ⟨rfl, ?_⟩
  intro xs hx
  exact Json.noConfusion hx

/-- C6: a valid single request (version 2.0, registered method) is
answered by a dispatched envelope whose id field equals the request id,
whether the handler succeeded or failed. -/
theorem C6_id_echo (U : Upstream) (p : Json) (m : String)
    (hv : jsGet p "jsonrpc" = some (Json.str "2.0"))
    (hm : jsGet p "method" = some (Json.str m))
    (hreg : m ∈ registeredMethods) :
    ∃ env, handleRequest U p = Except.ok env ∧ jsGet env "id" = jsGet p "id" := by
  unfold handleRequest
  rw [handleRequestT_valid U hv hm hreg]
  cases hc : callHandler U m (paramsOrEmpty (jsGet p "params")) with
  | ok r =>
    refine ⟨rpcResultEnv r (jsGet p "id"), ?_, jsGet_rpcResultEnv_id _ _⟩
    simp [hc]
  | error e =>
    refine ⟨rpcErrorEnv e (jsGet p "id"), ?_, jsGet_rpcErrorEnv_id _ _⟩
    simp [hc]

/-- C6 witness: the ping request with id 5. -/
theorem C6_witness :
    ∃ env, handleRequest stubUpstream pingBody = Except.ok env ∧
      jsGet env "id" = jsGet pingBody "id" :=
  C6_id_echo stubUpstream pingBody "ping" rfl rfl (by decide)

/-- C7 (amended): a tools/call invocation whose tool name is not one of
the six recognized tools never lets an exception escape the dispatch
boundary: it is answered by a JSON-RPC error envelope, but the error
code is the generic internal-error code -32603 (the thrown Unknown tool
error carries no code), not a method/tool-not-found code such as -32601
(see the counterexample). -/
theorem C7_unknown_tool (U : Upstream) (p pv : Json) (n : String)
    (hv : jsGet p "jsonrpc" = some (Json.str "2.0"))
    (hm : jsGet p "method" = some (Json.str "tools/call"))
    (hp : jsGet p "params" = some pv)
    (hn : jsGet pv "name" = some (Json.str n))
    (hnot : n ∉ toolNames) :
    handleRequest U p
      = Except.ok (rpcErrorEnv ⟨none, "Unknown tool: " ++ n, none⟩ (jsGet p "id")) ∧
    errField (rpcErrorEnv ⟨none, "Unknown tool: " ++ n, none⟩ (jsGet p "id")) "code"
      = some (Json.num (-32603)) := by
  obtain ⟨fieldsPv, rfl⟩ := jsGet_some_obj hn
  simp only [toolNames, List.mem_cons, List.mem_singleton, not_or] at hnot
  obtain ⟨h1, h2, h3, h4, h5, h6⟩ := by simpa using hnot
  constructor
  · unfold handleRequest
    rw [handleRequestT_valid U hv hm (by decide)]
    simp [hp, paramsOrEmpty_obj, callHandler, handleToolCall, hn, h1, h2, h3, h4, h5, h6]
  · rw [errField_rpcErrorEnv_code]
    rfl

/-- C7 witness: a tools/call with the unrecognized name bogus. -/
theorem C7_witness :
    handleRequest stubUpstream bogusToolBody
      = Except.ok (rpcErrorEnv ⟨none, "Unknown tool: " ++ "bogus", none⟩
          (jsGet bogusToolBody "id")) ∧
    errField (rpcErrorEnv ⟨none, "Unknown tool: " ++ "bogus", none⟩
        (jsGet bogusToolBody "id")) "code"
      = some (Json.num (-32603)) :=
  C7_unknown_tool stubUpstream bogusToolBody (Json.obj [("name", Json.str "bogus")])
    "bogus" rfl rfl rfl rfl (by decide)

/-- C7 counterexample: the error code for an unknown tool is the generic
-32603, which is not the method-not-found code -32601 the claim names. -/
theorem C7_counterexample :
    errField (mcpRoute stubUpstream bogusToolBody).2 "code"
      = some (Json.num (-32603)) ∧
    ((-32603 : Int) ≠ -32601) := ⟨rfl, by decide⟩

/-- C8 (amended): dispatched envelopes echo the request id unchanged
(including 0, the empty string and null, and echoing absence as
absence), and unparseable payloads get id null; but the authentication
gate does synthesize the id of its Unauthorized envelopes with the
coercion id-or-null, which collapses the falsy ids 0, empty string,
false and null to null (see the counterexample). -/
theorem C8_id_rules :
    (∀ (secret : String) (hdr : Option String) (body : Json) (resp : Nat × Json),
       mcpAuth secret hdr body = some resp → jsGet resp.2 "id" = some (authId body)) ∧
    (∀ (U : Upstream) (p env : Json), handleRequest U p = Except.ok env →
       jsGet env "id" = jsGet p "id") := by
  constructor
  · intro secret hdr body resp h
    obtain ⟨c, d, rfl⟩ := mcpAuth_some h
    exact jsGet_unauthorizedEnv_id c d body
  · intro U p env h
    exact (handleRequest_ok h).2

/-- C8 witness: the auth-gate id rule applied at a concrete request. -/
theorem C8_witness :
    jsGet (unauthorizedEnv (-32600) noTokenData toolsListBodyIdZero) "id"
      = some (authId toolsListBodyIdZero) :=
  C8_id_rules.1 "s" none toolsListBodyIdZero
    (200, unauthorizedEnv (-32600) noTokenData toolsListBodyIdZero) rfl

/-- C8 counterexample: a request with id 0 and no Authorization header is
answered with id null, not with the echoed id 0. -/
theorem C8_counterexample :
    mcpEndpoint stubUpstream "s" none toolsListBodyIdZero
      = (200, unauthorizedEnv (-32600) noTokenData toolsListBodyIdZero) ∧
    jsGet (unauthorizedEnv (-32600) noTokenData toolsListBodyIdZero) "id"
      = some Json.null ∧
    jsGet toolsListBodyIdZero "id" = some (Json.num 0) ∧
    Json.null ≠ Json.num 0 :=
  ⟨rfl, rfl, rfl, fun hx => Json.noConfusion hx⟩

/-- C9: submitting the JSON-string encoding of a request value R (one
extra stringification layer) normalizes to the same payload as
submitting R directly, and hence the dispatched route response is the
same. -/
theorem C9_stringified_equiv (U : Upstream) (R : Json) (h : ∀ s, R ≠ Json.str s) :
    normalizePayload (Json.str (jsonStringify R)) = normalizePayload R ∧
    mcpRoute U (Json.str (jsonStringify R)) = mcpRoute U R := by
  have hok : normalizePayload R = Except.ok R := by
    cases R with
    | str s => exact absurd rfl (h s)
    | null => rfl
    | bool b => rfl
    | num n => rfl
    | arr xs => rfl
    | obj f => rfl
  have hstr : normalizePayload (Json.str (jsonStringify R)) = Except.ok R := by
    have hred : normalizePayload (Json.str (jsonStringify R))
        = match jsonParse (jsonStringify R) with
          | some v =>
            match v with
            | Json.str s2 =>
              match jsonParse s2 with
              | some v2 => Except.ok v2
              | none => Except.ok (Json.str s2)
            | other => Except.ok other
          | none =>
            match jsonParse (cleanupBody (jsonStringify R)) with
            | some v => Except.ok v
            | none => Except.error parseFailMsg := rfl
    rw [hred, jsonParse_stringify]
    cases R with
    | str s => exact absurd rfl (h s)
    | null => rfl
    | bool b => rfl
    | num n => rfl
    | arr xs => rfl
    | obj f => rfl
  refine ⟨by rw [hok, hstr], ?_⟩
  unfold mcpRoute
  rw [hok, hstr]

/-- C9 witness: the round trip at the concrete ping request object. -/
theorem C9_witness :
    normalizePayload (Json.str (jsonStringify pingBody)) = normalizePayload pingBody ∧
    mcpRoute stubUpstream (Json.str (jsonStringify pingBody))
      = mcpRoute stubUpstream pingBody :=
  C9_stringified_equiv stubUpstream pingBody (fun _ hx => Json.noConfusion hx)

/-- C10: every tools/call invocation naming search_flights is answered
by a JSON-RPC error envelope with the internal-error code -32603 and
never by a success result, for every upstream oracle: the handler
references getFlightDeals, which src/server.js neither defines nor
imports, so the handler always throws (a destructuring TypeError when
arguments are absent, the ReferenceError otherwise). -/
theorem C10_flights_error (U : Upstream) (p pv : Json)
    (hv : jsGet p "jsonrpc" = some (Json.str "2.0"))
    (hm : jsGet p "method" = some (Json.str "tools/call"))
    (hp : jsGet p "params" = some pv)
    (hn : jsGet pv "name" = some (Json.str "search_flights")) :
    ∃ e, handleRequest U p = Except.ok (rpcErrorEnv e (jsGet p "id")) ∧
      errEnvCode e = -32603 ∧
      jsGet (rpcErrorEnv e (jsGet p "id")) "result" = none := by
  obtain ⟨fieldsPv, rfl⟩ := jsGet_some_obj hn
  obtain ⟨e, he, hc⟩ := handleSearchFlights_error U (jsGet (Json.obj fieldsPv) "arguments")
  refine ⟨e, ?_, by simp [errEnvCode, hc], jsGet_rpcErrorEnv_result _ _⟩
  unfold handleRequest
  rw [handleRequestT_valid U hv hm (by decide)]
  simp [hp, paramsOrEmpty_obj, callHandler, handleToolCall, hn, he]

/-- C10 witness: a concrete search_flights call with arguments. -/
theorem C10_witness :
    ∃ e, handleRequest stubUpstream flightsToolBody
        = Except.ok (rpcErrorEnv e (jsGet flightsToolBody "id")) ∧
      errEnvCode e = -32603 ∧
      jsGet (rpcErrorEnv e (jsGet flightsToolBody "id")) "result" = none :=
  C10_flights_error stubUpstream flightsToolBody
    (Json.obj [("name", Json.str "search_flights"),
      ("arguments", Json.obj [("query", Json.str "DEL")])])
    rfl rfl rfl rfl

end Gymbros
